import Mathlib

/-!
Verification development for the CaseTracker backend
(`backend/app/services/ollama_service.py`, `backend/app/main.py`,
`backend/app/models/case.py`).

The Python code is shallowly embedded: JSON values become the inductive
`JValue`, Python dicts become association lists, Python exceptions become
`Except String`, and the string operations used by the code
(`strip`, `lower`, `replace(" ", "-")`, slicing, `in`, `title`) are
modelled over `List Char` (ASCII scope; the code only manipulates ASCII
literals and tags).
-/

set_option maxRecDepth 40000

namespace CaseTracker

/-- A JSON-like Python value, as produced by `json.loads` and consumed by
`_validate_analysis`.  Numbers are modelled as integers (no claim touches
non-integral numerics). -/
inductive JValue where
  | jnull
  | jbool (b : Bool)
  | jnum (n : Int)
  | jstr (s : String)
  | jarr (xs : List JValue)
  | jobj (fields : List (String × JValue))

/-- Python `dict` lookup on an association list (JSON objects have unique
keys, so first match is the dict semantics). -/
def lookupJ (fs : List (String × JValue)) (k : String) : Option JValue :=
  (fs.find? (fun kv => kv.1 == k)).map (fun kv => kv.2)

/-- Python truthiness of a value (`if validated["specialty"]:` etc.). -/
def pyTruthy : JValue → Bool
  | .jnull => false
  | .jbool b => b
  | .jnum n => n != 0
  | .jstr s => !s.data.isEmpty
  | .jarr xs => !xs.isEmpty
  | .jobj fs => !fs.isEmpty

/-- `isinstance(x, list)`. -/
def isListB : JValue → Bool
  | .jarr _ => true
  | _ => false

/-- `isinstance(x, str)`. -/
def isStrB : JValue → Bool
  | .jstr _ => true
  | _ => false

/-- `if not isinstance(validated[f], list): validated[f] = []` —
the list-coercion step of `_validate_analysis` (source lines 102-105). -/
def asList : JValue → List JValue
  | .jarr xs => xs
  | _ => []

/-! ## Python string primitives over `List Char` -/

/-- The whitespace characters stripped by Python `str.strip()` (ASCII part). -/
def wsChars : List Char := [' ', '\t', '\n', '\r', '\x0b', '\x0c']

/-- Whitespace test used by our model of `str.strip()`. -/
def isWS (c : Char) : Bool := wsChars.contains c

/-- The 26 ASCII case pairs, used to model `str.lower()` / `str.upper()`. -/
def casePairs : List (Char × Char) :=
  [('A', 'a'), ('B', 'b'), ('C', 'c'), ('D', 'd'), ('E', 'e'), ('F', 'f'),
   ('G', 'g'), ('H', 'h'), ('I', 'i'), ('J', 'j'), ('K', 'k'), ('L', 'l'),
   ('M', 'm'), ('N', 'n'), ('O', 'o'), ('P', 'p'), ('Q', 'q'), ('R', 'r'),
   ('S', 's'), ('T', 't'), ('U', 'u'), ('V', 'v'), ('W', 'w'), ('X', 'x'),
   ('Y', 'y'), ('Z', 'z')]

/-- One character of Python `str.lower()` (ASCII). -/
def lowerC (c : Char) : Char :=
  (((casePairs.find? (fun p => p.1 == c)).map (fun p => p.2)).getD c)

/-- One character of Python `str.upper()` (ASCII); used by `str.title()`. -/
def upperC (c : Char) : Char :=
  (((casePairs.find? (fun p => p.2 == c)).map (fun p => p.1)).getD c)

/-- One character of `str.replace(" ", "-")`. -/
def hyphC (c : Char) : Char := if c = ' ' then '-' else c

/-- Python `str.strip()`: drop leading and trailing whitespace. -/
def stripL (l : List Char) : List Char :=
  (l.dropWhile isWS).rdropWhile isWS

/-- Python `str.lower()` (ASCII). -/
def lowerL (l : List Char) : List Char := l.map lowerC

/-- Python `str.replace(" ", "-")`. -/
def hyphL (l : List Char) : List Char := l.map hyphC

/-- The tag-cleaning rule of `_validate_analysis` (source line 113):
`tag.strip().lower().replace(" ", "-")`. -/
def cleanL (l : List Char) : List Char := hyphL (lowerL (stripL l))

/-- String versions of the primitives. -/
def pyStrip (s : String) : String := ⟨stripL s.data⟩

def pyLower (s : String) : String := ⟨lowerL s.data⟩

/-- `tag.strip().lower().replace(" ", "-")` as a `String` function. -/
def cleanTag (s : String) : String := ⟨cleanL s.data⟩

/-- `s.lower().replace(" ", "-")` (no strip) — the auto-tag derivation used
for specialty and case_type (source lines 120 and 124). -/
def hyphLower (s : String) : String := ⟨hyphL (lowerL s.data)⟩

/-- Python slicing `s[:n]` (by code point). -/
def pySlice (s : String) (n : Nat) : String := ⟨s.data.take n⟩

/-- Python substring test `needle in hay`. -/
def pySubstr (needle hay : List Char) : Bool :=
  match hay with
  | [] => needle.isEmpty
  | _ :: rest => needle.isPrefixOf hay || pySubstr needle rest

/-- Python `str.title()` (ASCII): uppercase each letter that follows a
non-letter, lowercase the other letters. `prevAlpha` tracks whether the
previous character was a letter. -/
def titleL : List Char → Bool → List Char
  | [], _ => []
  | c :: rest, prevAlpha =>
    if c.isAlpha then
      (if prevAlpha then lowerC c else upperC c) :: titleL rest true
    else
      c :: titleL rest false

def pyTitle (s : String) : String := ⟨titleL s.data false⟩

/-- Model of Python `list(set(xs))` for string lists: deduplicate
(the order produced by a Python `set` is unspecified; this model keeps
the last occurrence of each element, which is immaterial to every
property stated below — they only use membership and duplicate-freedom). -/
def pyDedup : List String → List String
  | [] => []
  | x :: xs =>
    let r := pyDedup xs
    if r.contains x then r else x :: r

/-! ## Python `str()` / `repr()` of a JSON value

Used by the f-string `f"complexity-{validated['complexity']}"`
(source line 122), which stringifies an arbitrary value.  `repr` of a
string is modelled with plain single quotes (quote-escaping of quotes
embedded in the string is elided; no value in the repository contains
quotes). -/

mutual

def pyRepr : JValue → String
  | .jnull => "None"
  | .jbool b => if b then "True" else "False"
  | .jnum n => toString n
  | .jstr s => "'" ++ s ++ "'"
  | .jarr xs => "[" ++ String.intercalate ", " (pyReprList xs) ++ "]"
  | .jobj fs => "\x7b" ++ String.intercalate ", " (pyReprObj fs) ++ "\x7d"

def pyReprList : List JValue → List String
  | [] => []
  | x :: xs => pyRepr x :: pyReprList xs

def pyReprObj : List (String × JValue) → List String
  | [] => []
  | kv :: fs => ("'" ++ kv.1 ++ "': " ++ pyRepr kv.2) :: pyReprObj fs

end

/-- Python `str()` of a value: identity on strings, `repr`-like otherwise
(which matches Python for numbers, booleans, `None`, lists and dicts). -/
def pyStr : JValue → String
  | .jstr s => s
  | v => pyRepr v

/-! ## The CaseAnalysis record produced by `_validate_analysis`

The `validated` dict of `ollama_service.py` lines 87-100: all nine keys are
always present; the nested `patient_demographics` dict is flattened into
its two subfields.  After the list-coercion step the four sequence fields
are genuine lists, and after tag cleaning `tags` is a list of strings. -/

structure CaseAnalysisV where
  specialty : JValue
  case_type : JValue
  complexity : JValue
  age_range : JValue
  gender : JValue
  summary : JValue
  key_findings : List JValue
  differential_diagnosis : List JValue
  learning_points : List JValue
  tags : List String

/-- The tag-cleaning loop (source lines 109-114): keep the values that are
strings and non-empty after `strip()`, and clean each. -/
def cleanTags (l : List JValue) : List String :=
  l.filterMap fun tv =>
    match tv with
    | .jstr s => if (stripL s.data).isEmpty then none else some (cleanTag s)
    | _ => none

/-- The specialty / case_type auto-tag step (source lines 119-120, 123-124):
`if validated[f]: auto_tags.append(validated[f].lower().replace(" ", "-"))`.
Calling `.lower()` on a truthy non-string raises `AttributeError`. -/
def autoTagE (v : JValue) : Except String (List String) :=
  if pyTruthy v then
    match v with
    | .jstr s => .ok [hyphLower s]
    | _ => .error "AttributeError"
  else .ok []

/-- The complexity auto-tag (source lines 121-122):
`auto_tags.append(f"complexity-{validated['complexity']}")` — note the
value is stringified verbatim, not cleaned.  This never raises. -/
def complexityTag (v : JValue) : List String :=
  if pyTruthy v then ["complexity-" ++ pyStr v] else []

/-- `OllamaService._validate_analysis` (ollama_service.py lines 84-130).

`analysis.get(k, default)` returns the stored value whenever the key is
present — including `None` — and the default only when the key is absent;
on a non-dict receiver `.get` raises `AttributeError`.  The nested
demographics lookups (lines 92-93) therefore raise when
`patient_demographics` is present but not a dict, and the auto-tag steps
raise when specialty / case_type are truthy non-strings.  The final
`list(set(...))` merges (line 127) are modelled by `pyDedup`. -/
def validate_analysis (analysis : JValue) : Except String CaseAnalysisV :=
  match analysis with
  | .jobj fs =>
    let specialty := (lookupJ fs "specialty").getD (.jstr "General Medicine")
    let case_type := (lookupJ fs "case_type").getD (.jstr "Clinical Case")
    let complexity := (lookupJ fs "complexity").getD (.jstr "medium")
    match (lookupJ fs "patient_demographics").getD (.jobj []) with
    | .jobj pdf =>
      let age_range := (lookupJ pdf "age_range").getD (.jstr "not specified")
      let gender := (lookupJ pdf "gender").getD (.jstr "not specified")
      let summary := (lookupJ fs "summary").getD (.jstr "Medical case requiring analysis")
      -- lines 102-105: ensure lists are actually lists
      let key_findings := asList ((lookupJ fs "key_findings").getD (.jarr []))
      let differential_diagnosis :=
        asList ((lookupJ fs "differential_diagnosis").getD (.jarr []))
      let learning_points := asList ((lookupJ fs "learning_points").getD (.jarr []))
      let tagsL := asList ((lookupJ fs "tags").getD (.jarr []))
      -- lines 107-115: clean and normalize tags (skipped when the list is empty)
      let modelTags := if tagsL.isEmpty then [] else pyDedup (cleanTags tagsL)
      -- lines 117-124: automatic tags
      match autoTagE specialty with
      | .error e => .error e
      | .ok a1 =>
        match autoTagE case_type with
        | .error e => .error e
        | .ok a3 =>
          let auto_tags := a1 ++ complexityTag complexity ++ a3
          -- lines 126-128: merge
          .ok { specialty, case_type, complexity, age_range, gender, summary,
                key_findings, differential_diagnosis, learning_points,
                tags := pyDedup (modelTags ++ auto_tags) }
    | _ => .error "AttributeError"
  | _ => .error "AttributeError"

/-! ## Fallback constructors -/

/-- `OllamaService._create_fallback_analysis` (ollama_service.py lines
159-174): the deterministic analysis used when the model call raises or
returns a non-200 status.  The summary is
`f"Medical case: {transcription[:150]}..."` when the transcription is
longer than 150 characters, and the transcription itself otherwise. -/
def create_fallback_analysis (transcription : String) : CaseAnalysisV :=
  { specialty := .jstr "General Medicine"
    case_type := .jstr "Clinical Case"
    complexity := .jstr "medium"
    age_range := .jstr "not specified"
    gender := .jstr "not specified"
    summary := .jstr (if 150 < transcription.data.length then
        "Medical case: " ++ pySlice transcription 150 ++ "..."
      else transcription)
    key_findings := [.jstr "Transcription available for review"]
    differential_diagnosis := []
    learning_points := [.jstr "Case documented for future analysis"]
    tags := ["unprocessed"] }

/-- The fixed specialty vocabulary of `_extract_fallback_analysis`
(ollama_service.py line 135), in scan order. -/
def specialtiesVocab : List String :=
  ["cardiology", "neurology", "surgery", "pediatrics", "internal medicine",
   "emergency"]

/-- `OllamaService._extract_fallback_analysis` (ollama_service.py lines
132-157): keyword extraction used when the model responds but its payload
is not valid JSON.  The loop `for specialty in specialties: if specialty in
transcription_lower: ...; break` is first-match-wins in vocabulary order;
the match is title-cased, the default is "General Medicine". -/
def extract_fallback_analysis (analysisText transcription : String) : CaseAnalysisV :=
  let transcriptionLower := lowerL transcription.data
  let detected :=
    ((specialtiesVocab.find? fun s => pySubstr s.data transcriptionLower).map
      pyTitle).getD "General Medicine"
  { specialty := .jstr detected
    case_type := .jstr "Clinical Case"
    complexity := .jstr "medium"
    age_range := .jstr "not specified"
    gender := .jstr "not specified"
    summary := .jstr ("Medical case transcription: " ++ pySlice transcription 100 ++ "...")
    key_findings := [.jstr "Case requires manual analysis"]
    differential_diagnosis := []
    learning_points := [.jstr "Case requires further analysis"]
    tags := [hyphLower detected] }

/-! ## `analyze_case` -/

/-- How the body of the response parsed: `result.get("response", "")`
either fails `json.loads` (lines 39-42) or yields a JSON value. -/
inductive RespParse where
  | notJson (analysisText : String)
  | parsed (v : JValue)

/-- The outcome of the single `requests.post` call: either the call raises
(connection failure or the 60-second timeout), or it returns a status code
and a body. -/
inductive ModelOutcome where
  | exn
  | resp (status : Nat) (body : RespParse)

/-- `OllamaService.analyze_case` (ollama_service.py lines 12-47).  All of
the body runs inside `try: ... except Exception: return
self._create_fallback_analysis(transcription)`, so an `AttributeError`
raised inside `_validate_analysis` is also converted to the fallback.
A non-200 status yields the fallback (lines 28-30); an unparseable payload
yields the extraction fallback (lines 39-42).  The `Except` result models
exceptions escaping the method: no branch produces `.error`. -/
def analyze_case (transcription : String) (o : ModelOutcome) :
    Except String CaseAnalysisV :=
  match o with
  | .exn => .ok (create_fallback_analysis transcription)
  | .resp status body =>
    if status ≠ 200 then .ok (create_fallback_analysis transcription)
    else
      match body with
      | .notJson txt => .ok (extract_fallback_analysis txt transcription)
      | .parsed v =>
        match validate_analysis v with
        | .ok validated => .ok validated
        | .error _ => .ok (create_fallback_analysis transcription)

/-! ## The `/api/analyze-transcription` endpoint (main.py lines 115-175) -/

/-- A Python exception reaching the endpoint's `except` clause: either an
`HTTPException(status, detail)` or some other exception rendered by
`str(e)`. -/
inductive PyExc where
  | httpExc (status : Nat) (detail : String)
  | other (msg : String)

/-- `str(e)` — starlette's `HTTPException.__str__` renders
`f"{status_code}: {detail}"`. -/
def excStr : PyExc → String
  | .httpExc status detail => toString status ++ ": " ++ detail
  | .other msg => msg

/-- The persisted case row built at main.py lines 147-162 (timestamps and
the generated uuid are omitted: no claim mentions them). -/
structure SavedCase where
  audio_file_path : String
  transcription : String
  specialty : JValue
  case_type : JValue
  complexity : JValue
  patient_age_range : JValue
  patient_gender : JValue
  summary : JValue
  key_findings : List JValue
  differential_diagnosis : List JValue
  learning_points : List JValue
  tags : List String

/-- The `try:` body of `analyze_transcription` (main.py lines 118-172),
for the case where the Ollama service is available: empty-after-strip
transcription raises `HTTPException(400, "Transcription is required")`
(lines 122-123); otherwise the analysis dict — which always carries every
key — is stored field by field (lines 147-162). -/
def analyze_transcription_body (transcription audioFileName : String)
    (o : ModelOutcome) : Except PyExc SavedCase :=
  if (stripL transcription.data).isEmpty then
    .error (.httpExc 400 "Transcription is required")
  else
    match analyze_case transcription o with
    | .error e => .error (.other e)
    | .ok v =>
      .ok { audio_file_path := audioFileName
            transcription := transcription
            specialty := v.specialty
            case_type := v.case_type
            complexity := v.complexity
            patient_age_range := v.age_range
            patient_gender := v.gender
            summary := v.summary
            key_findings := v.key_findings
            differential_diagnosis := v.differential_diagnosis
            learning_points := v.learning_points
            tags := v.tags }

/-- `analyze_transcription` (main.py lines 115-175).  The whole body sits
inside `try: ... except Exception as e: raise HTTPException(500, str(e))`
with no separate re-raise clause for `HTTPException`, so even the 400
raised for an empty transcription is caught and re-raised as a 500 whose
detail is `str(e)`. -/
def analyze_transcription (transcription audioFileName : String)
    (o : ModelOutcome) : Except (Nat × String) SavedCase :=
  match analyze_transcription_body transcription audioFileName o with
  | .ok r => .ok r
  | .error e => .error (500, excStr e)

/-! ## The `PUT /api/cases/{case_id}` endpoint (main.py lines 255-306) -/

/-- The mutable columns of the stored `Case` row (models/case.py);
`id`, `audio_file_path` and the timestamps are omitted — the update
endpoint never writes them except `updated_at`, which the claims
explicitly except.  Values are JSON values as assigned by `setattr`. -/
structure StoredCase where
  specialty : JValue
  case_type : JValue
  complexity : JValue
  summary : JValue
  transcription : JValue
  patient_age_range : JValue
  patient_gender : JValue
  key_findings : JValue
  differential_diagnosis : JValue
  learning_points : JValue
  tags : JValue
  notes : JValue
  is_favorite : JValue

/-- The allow-list of main.py lines 266-270. -/
def allowed_fields : List String :=
  ["specialty", "case_type", "complexity", "summary", "transcription",
   "key_findings", "differential_diagnosis", "learning_points", "tags",
   "notes", "is_favorite"]

/-- The JSON-typed columns coerced at main.py lines 280-283. -/
def json_fields : List String :=
  ["key_findings", "differential_diagnosis", "learning_points", "tags"]

/-- `setattr(case, key, value)` guarded by `if key in allowed_fields`
(main.py lines 286-291); a key outside the allow-list is ignored
(only logged). -/
def setAllowed (c : StoredCase) (k : String) (v : JValue) : StoredCase :=
  if k = "specialty" then { c with specialty := v }
  else if k = "case_type" then { c with case_type := v }
  else if k = "complexity" then { c with complexity := v }
  else if k = "summary" then { c with summary := v }
  else if k = "transcription" then { c with transcription := v }
  else if k = "key_findings" then { c with key_findings := v }
  else if k = "differential_diagnosis" then { c with differential_diagnosis := v }
  else if k = "learning_points" then { c with learning_points := v }
  else if k = "tags" then { c with tags := v }
  else if k = "notes" then { c with notes := v }
  else if k = "is_favorite" then { c with is_favorite := v }
  else c

/-- An entry survives `case_data.pop('patient_demographics')`
(main.py lines 273-274). -/
def keepAfterPop (kv : String × JValue) : Bool :=
  kv.1 != "patient_demographics"

/-- One entry of the JSON-field coercion loop (main.py lines 280-283):
`if field in case_data and not isinstance(case_data[field], list):
case_data[field] = []`. -/
def coerceJsonField (kv : String × JValue) : String × JValue :=
  if json_fields.contains kv.1 && !isListB kv.2 then (kv.1, JValue.jarr [])
  else kv

/-- The update logic of `update_case` applied to an existing case
(main.py lines 272-293): pop and apply `patient_demographics` field by
field (falling back to the stored value for a missing subfield), replace
any non-list value of a JSON-typed field with the empty list, then assign
the allow-listed fields in request order.  For an existing case this path
raises nothing. -/
def update_case_fields (c : StoredCase) (data : List (String × JValue)) :
    StoredCase :=
  let step1 :=
    match lookupJ data "patient_demographics" with
    | some (.jobj pdf) =>
      { c with
        patient_age_range := (lookupJ pdf "age_range").getD c.patient_age_range,
        patient_gender := (lookupJ pdf "gender").getD c.patient_gender }
    | _ => c
  let rest := data.filter keepAfterPop
  let coerced := rest.map coerceJsonField
  coerced.foldl (fun acc kv => setAllowed acc kv.1 kv.2) step1

/-! ## Total companion of `validate_analysis`

`validate_analysis` raises (`AttributeError`) exactly when the candidate
is not an object, its `patient_demographics` is present but not an object,
or its `specialty` / `case_type` is a truthy non-string.  On the
complement — captured by `candidateOkB` — it agrees with the total
function `mkValidated`; the two directions are proved below and every
theorem about `validate_analysis` goes through them. -/

/-- The field `k`, if present, is a string or falsy (so that line 120 /
line 124 of the source cannot raise on it). -/
def strFieldOk (fs : List (String × JValue)) (k : String) : Bool :=
  match lookupJ fs k with
  | none => true
  | some v => !pyTruthy v || isStrB v

/-- The candidate inputs on which `_validate_analysis` returns normally. -/
def candidateOkB : JValue → Bool
  | .jobj fs =>
    (match lookupJ fs "patient_demographics" with
     | none => true
     | some (.jobj _) => true
     | some _ => false)
    && strFieldOk fs "specialty" && strFieldOk fs "case_type"
  | _ => false

/-- Total version of the specialty / case_type auto-tag: agrees with
`autoTagE` whenever the latter does not raise. -/
def autoTagT : JValue → List String
  | .jstr s => if s.data.isEmpty then [] else [hyphLower s]
  | _ => []

/-- Total version of the nested demographics lookup: agrees with the
source whenever `patient_demographics` defaulted to an object. -/
def pdGetT (pd : JValue) (k : String) (d : JValue) : JValue :=
  match pd with
  | .jobj g => (lookupJ g k).getD d
  | _ => d

/-- The value `_validate_analysis` returns on a well-formed candidate. -/
def mkValidated (fs : List (String × JValue)) : CaseAnalysisV :=
  let specialty := (lookupJ fs "specialty").getD (.jstr "General Medicine")
  let case_type := (lookupJ fs "case_type").getD (.jstr "Clinical Case")
  let complexity := (lookupJ fs "complexity").getD (.jstr "medium")
  let pd := (lookupJ fs "patient_demographics").getD (.jobj [])
  let age_range := pdGetT pd "age_range" (.jstr "not specified")
  let gender := pdGetT pd "gender" (.jstr "not specified")
  let summary := (lookupJ fs "summary").getD (.jstr "Medical case requiring analysis")
  let key_findings := asList ((lookupJ fs "key_findings").getD (.jarr []))
  let differential_diagnosis :=
    asList ((lookupJ fs "differential_diagnosis").getD (.jarr []))
  let learning_points := asList ((lookupJ fs "learning_points").getD (.jarr []))
  let tagsL := asList ((lookupJ fs "tags").getD (.jarr []))
  let modelTags := if tagsL.isEmpty then [] else pyDedup (cleanTags tagsL)
  let auto_tags := autoTagT specialty ++ complexityTag complexity ++ autoTagT case_type
  { specialty, case_type, complexity, age_range, gender, summary,
    key_findings, differential_diagnosis, learning_points,
    tags := pyDedup (modelTags ++ auto_tags) }

/-- Re-encoding of a validated analysis as a candidate object, with the
same keys the source dict carries (tags as a JSON list of strings) —
used to state idempotence of normalization. -/
def toCandidateFields (v : CaseAnalysisV) : List (String × JValue) :=
  [("specialty", v.specialty), ("case_type", v.case_type),
   ("complexity", v.complexity),
   ("patient_demographics",
    .jobj [("age_range", v.age_range), ("gender", v.gender)]),
   ("summary", v.summary), ("key_findings", .jarr v.key_findings),
   ("differential_diagnosis", .jarr v.differential_diagnosis),
   ("learning_points", .jarr v.learning_points),
   ("tags", .jarr (v.tags.map JValue.jstr))]

def toCandidate (v : CaseAnalysisV) : JValue := .jobj (toCandidateFields v)

/-- The fully-defaulted analysis: what normalizing the empty candidate
object yields. -/
def defaultValidated : CaseAnalysisV :=
  { specialty := .jstr "General Medicine"
    case_type := .jstr "Clinical Case"
    complexity := .jstr "medium"
    age_range := .jstr "not specified"
    gender := .jstr "not specified"
    summary := .jstr "Medical case requiring analysis"
    key_findings := []
    differential_diagnosis := []
    learning_points := []
    tags := ["general-medicine", "complexity-medium", "clinical-case"] }

/-- The defaulted specialty value of the `validated` dict (source line 88). -/
def specialtyOf (fs : List (String × JValue)) : JValue :=
  (lookupJ fs "specialty").getD (.jstr "General Medicine")

/-- The defaulted case_type value (source line 89). -/
def case_typeOf (fs : List (String × JValue)) : JValue :=
  (lookupJ fs "case_type").getD (.jstr "Clinical Case")

/-- The defaulted complexity value (source line 90). -/
def complexityOf (fs : List (String × JValue)) : JValue :=
  (lookupJ fs "complexity").getD (.jstr "medium")

/-- The cleaned model-suggested tags of a candidate (source lines 107-115). -/
def modelTagsOf (fs : List (String × JValue)) : List String :=
  let tagsL := asList ((lookupJ fs "tags").getD (.jarr []))
  if tagsL.isEmpty then [] else pyDedup (cleanTags tagsL)

/-- The auto-tags of a candidate (source lines 117-124), under the
well-formedness that makes `_validate_analysis` return. -/
def autoTagsOf (fs : List (String × JValue)) : List String :=
  autoTagT (specialtyOf fs) ++ complexityTag (complexityOf fs) ++
    autoTagT (case_typeOf fs)

/-- A 151-character transcription, one past the fallback truncation bound. -/
def longTranscription : String := ⟨List.replicate 151 'a'⟩

/-- A concrete stored case used to instantiate the update-endpoint
properties. -/
def sampleCase : StoredCase :=
  { specialty := .jstr "Cardiology"
    case_type := .jstr "acute"
    complexity := .jstr "high"
    summary := .jstr "Inferior wall MI"
    transcription := .jstr "chest pain radiating to left arm"
    patient_age_range := .jstr "40-50"
    patient_gender := .jstr "male"
    key_findings := .jarr [.jstr "ST elevation"]
    differential_diagnosis := .jarr [.jstr "MI", .jstr "pericarditis"]
    learning_points := .jarr [.jstr "door-to-balloon time"]
    tags := .jarr [.jstr "cardiology", .jstr "mi"]
    notes := .jstr "follow up"
    is_favorite := .jbool false }

/-! ## Lemmas about `pyDedup` -/

theorem mem_pyDedup {a : String} {l : List String} :
    a ∈ pyDedup l ↔ a ∈ l := by
  induction l with
  | nil => simp [pyDedup]
  | cons x xs ih =>
    simp only [pyDedup, List.mem_cons]
    by_cases h : (pyDedup xs).contains x = true
    · rw [if_pos h]
      have hx : x ∈ pyDedup xs := by simpa using h
      constructor
      · exact fun ha => Or.inr (ih.mp ha)
      · rintro (rfl | ha)
        · exact hx
        · exact ih.mpr ha
    · rw [if_neg h]
      simp only [List.mem_cons, ih]

theorem nodup_pyDedup (l : List String) : (pyDedup l).Nodup := by
  induction l with
  | nil => simp [pyDedup]
  | cons x xs ih =>
    simp only [pyDedup]
    by_cases h : (pyDedup xs).contains x = true
    · rw [if_pos h]; exact ih
    · rw [if_neg h]
      have hx : x ∉ pyDedup xs := by simpa using h
      exact List.nodup_cons.mpr ⟨hx, ih⟩

/-! ## Lemmas about the character-level operations -/

theorem lowerC_spec (c : Char) :
    lowerC c = c ∨ ∃ p ∈ casePairs, p.1 = c ∧ lowerC c = p.2 := by
  unfold lowerC
  cases h : casePairs.find? (fun p => p.1 == c) with
  | none => exact Or.inl rfl
  | some p =>
    refine Or.inr ⟨p, List.mem_of_find?_eq_some h, ?_, by simp⟩
    have := List.find?_some h
    simpa using this

theorem pairs_ws_fst : ∀ p ∈ casePairs, isWS p.1 = false := by decide

theorem pairs_ws_snd : ∀ p ∈ casePairs, isWS p.2 = false := by decide

theorem pairs_lowerC_snd : ∀ p ∈ casePairs, lowerC p.2 = p.2 := by decide

theorem isWS_lowerC (c : Char) : isWS (lowerC c) = isWS c := by
  rcases lowerC_spec c with h | ⟨p, hmem, h1, h2⟩
  · rw [h]
  · rw [h2, pairs_ws_snd p hmem, ← h1, pairs_ws_fst p hmem]

theorem lowerC_idem (c : Char) : lowerC (lowerC c) = lowerC c := by
  rcases lowerC_spec c with h | ⟨p, hmem, _, h2⟩
  · rw [h]; exact h
  · rw [h2, pairs_lowerC_snd p hmem]

theorem hyphC_idem (c : Char) : hyphC (hyphC c) = hyphC c := by
  unfold hyphC
  by_cases h : c = ' ' <;> simp [h]

theorem lowerC_hyphC_lowerC (c : Char) :
    lowerC (hyphC (lowerC c)) = hyphC (lowerC c) := by
  by_cases h : lowerC c = ' '
  · rw [h]; decide
  · unfold hyphC
    rw [if_neg h, lowerC_idem]

theorem isWS_hyphC_of (c : Char) (h : isWS c = false) :
    isWS (hyphC c) = false := by
  unfold hyphC
  by_cases hc : c = ' '
  · subst hc; simp [isWS, wsChars] at h
  · rwa [if_neg hc]

theorem isWS_cleanPt (c : Char) (h : isWS c = false) :
    isWS (hyphC (lowerC c)) = false :=
  isWS_hyphC_of _ (by rw [isWS_lowerC]; exact h)

/-! ## Lemmas about `stripL` and `cleanL` -/

theorem stripL_head? {l : List Char} {c : Char}
    (h : (stripL l).head? = some c) : isWS c = false := by
  have hne : stripL l ≠ [] := by
    intro he; rw [he] at h; simp at h
  have hpre : stripL l <+: l.dropWhile isWS := List.rdropWhile_prefix _ _
  obtain ⟨t, ht⟩ := hpre
  have hmne : l.dropWhile isWS ≠ [] := by
    intro he; rw [he] at ht
    exact hne (List.append_eq_nil.mp ht).1
  have hhead : (l.dropWhile isWS).head? = some c := by
    rw [← ht]
    cases hs : stripL l with
    | nil => exact absurd hs hne
    | cons a s => rw [hs] at h; simpa using h
  have := List.head_dropWhile_not isWS l hmne
  cases hm : l.dropWhile isWS with
  | nil => exact absurd hm hmne
  | cons a s =>
    rw [hm] at hhead
    simp at hhead
    subst hhead
    simpa [hm] using this

theorem stripL_getLast? {l : List Char} {c : Char}
    (h : (stripL l).getLast? = some c) : isWS c = false := by
  have hne : stripL l ≠ [] := by
    intro he; rw [he] at h; simp at h
  have hlast : ¬isWS ((stripL l).getLast hne) = true :=
    List.rdropWhile_last_not isWS (l.dropWhile isWS) hne
  have heq : (stripL l).getLast hne = c := by
    have h2 := List.getLast?_eq_getLast (stripL l) hne
    rw [h] at h2
    exact (Option.some.inj h2).symm
  rw [heq] at hlast
  simpa using hlast

theorem stripL_eq_self {l : List Char}
    (h1 : ∀ c, l.head? = some c → isWS c = false)
    (h2 : ∀ c, l.getLast? = some c → isWS c = false) :
    stripL l = l := by
  have hd : l.dropWhile isWS = l := by
    cases l with
    | nil => rfl
    | cons a s =>
      have := h1 a rfl
      simp [List.dropWhile_cons, this]
  unfold stripL
  rw [hd]
  rcases eq_or_ne l [] with rfl | hne
  · rfl
  · rw [List.rdropWhile_eq_self_iff]
    intro hl
    have := h2 (l.getLast hl) (List.getLast?_eq_getLast l hl)
    simp [this]

theorem stripL_map_stripL (f : Char → Char)
    (hf : ∀ c, isWS c = false → isWS (f c) = false) (l : List Char) :
    stripL ((stripL l).map f) = (stripL l).map f := by
  apply stripL_eq_self
  · intro c hc
    rw [List.head?_map] at hc
    obtain ⟨c₀, hc₀, rfl⟩ := Option.map_eq_some'.mp hc
    exact hf c₀ (stripL_head? hc₀)
  · intro c hc
    rw [List.getLast?_map] at hc
    obtain ⟨c₀, hc₀, rfl⟩ := Option.map_eq_some'.mp hc
    exact hf c₀ (stripL_getLast? hc₀)

theorem cleanL_eq_map (l : List Char) :
    cleanL l = (stripL l).map (fun c => hyphC (lowerC c)) := by
  unfold cleanL hyphL lowerL
  rw [List.map_map]
  rfl

theorem stripL_cleanL (l : List Char) : stripL (cleanL l) = cleanL l := by
  rw [cleanL_eq_map]
  exact stripL_map_stripL _ isWS_cleanPt l

theorem cleanL_idem (l : List Char) : cleanL (cleanL l) = cleanL l := by
  rw [cleanL_eq_map (cleanL l), stripL_cleanL, cleanL_eq_map l, List.map_map]
  exact List.map_congr_left fun c _ => by
    show hyphC (lowerC (hyphC (lowerC c))) = hyphC (lowerC c)
    rw [lowerC_hyphC_lowerC, hyphC_idem]

theorem cleanL_ne_nil {l : List Char} (h : stripL l ≠ []) : cleanL l ≠ [] := by
  rw [cleanL_eq_map]
  simpa using h

theorem cleanTag_idem (s : String) : cleanTag (cleanTag s) = cleanTag s := by
  unfold cleanTag
  exact congrArg String.mk (cleanL_idem s.data)

theorem cleanTag_strip_ne {s : String} (h : ¬(stripL s.data).isEmpty = true) :
    ¬(stripL (cleanTag s).data).isEmpty = true := by
  unfold cleanTag
  show ¬(stripL (cleanL s.data)).isEmpty = true
  rw [stripL_cleanL]
  simp only [List.isEmpty_iff] at h ⊢
  exact cleanL_ne_nil h

/-! ## `validate_analysis` agrees with `mkValidated` on well-formed input -/

theorem autoTagE_ok_of (v : JValue) (h : (!pyTruthy v || isStrB v) = true) :
    autoTagE v = .ok (autoTagT v) := by
  by_cases ht : pyTruthy v = true
  · cases v with
    | jstr s =>
      have he : s.data.isEmpty = false := by simpa [pyTruthy] using ht
      simp [autoTagE, autoTagT, ht, he]
    | jnull => simp [ht, isStrB] at h
    | jbool b => simp [ht, isStrB] at h
    | jnum n => simp [ht, isStrB] at h
    | jarr xs => simp [ht, isStrB] at h
    | jobj fs => simp [ht, isStrB] at h
  · have ht' : pyTruthy v = false := by simpa using ht
    cases v with
    | jstr s =>
      have he : s.data.isEmpty = true := by simpa [pyTruthy] using ht'
      simp [autoTagE, autoTagT, ht', he]
    | jnull => rfl
    | jbool b => simp [autoTagE, autoTagT, ht']
    | jnum n => simp [autoTagE, autoTagT, ht']
    | jarr xs => simp [autoTagE, autoTagT, ht']
    | jobj fs => simp [autoTagE, autoTagT, ht']

theorem autoTagE_ok_elim (v : JValue) (l : List String)
    (h : autoTagE v = .ok l) :
    (!pyTruthy v || isStrB v) = true ∧ l = autoTagT v := by
  by_cases ht : pyTruthy v = true
  · cases v with
    | jstr s =>
      have he : s.data.isEmpty = false := by simpa [pyTruthy] using ht
      refine ⟨by simp [isStrB], ?_⟩
      simp only [autoTagE, ht, if_true, autoTagT, he] at h ⊢
      simpa using h.symm
    | jnull => simp [pyTruthy] at ht
    | jbool b => simp [autoTagE, ht] at h
    | jnum n => simp [autoTagE, ht] at h
    | jarr xs => simp [autoTagE, ht] at h
    | jobj fs => simp [autoTagE, ht] at h
  · have ht' : pyTruthy v = false := by simpa using ht
    refine ⟨by simp [ht'], ?_⟩
    simp only [autoTagE, ht', Bool.false_eq_true, if_false] at h
    have hl : l = [] := by simpa using h.symm
    cases v with
    | jstr s =>
      have he : s.data.isEmpty = true := by simpa [pyTruthy] using ht'
      simp [autoTagT, he, hl]
    | jnull => simp [autoTagT, hl]
    | jbool b => simp [autoTagT, hl]
    | jnum n => simp [autoTagT, hl]
    | jarr xs => simp [autoTagT, hl]
    | jobj fs => simp [autoTagT, hl]

theorem strFieldOk_getD (fs : List (String × JValue)) (k d : String)
    (h : strFieldOk fs k = true) :
    (!pyTruthy ((lookupJ fs k).getD (.jstr d)) ||
      isStrB ((lookupJ fs k).getD (.jstr d))) = true := by
  unfold strFieldOk at h
  cases hl : lookupJ fs k with
  | none => simp [isStrB]
  | some v => rw [hl] at h; simpa using h

theorem strFieldOk_of_getD (fs : List (String × JValue)) (k d : String)
    (h : (!pyTruthy ((lookupJ fs k).getD (.jstr d)) ||
      isStrB ((lookupJ fs k).getD (.jstr d))) = true) :
    strFieldOk fs k = true := by
  unfold strFieldOk
  cases hl : lookupJ fs k with
  | none => rfl
  | some v => rw [hl] at h; simpa using h

theorem validate_eval (fs : List (String × JValue))
    (h : candidateOkB (.jobj fs) = true) :
    validate_analysis (.jobj fs) = .ok (mkValidated fs) := by
  simp only [candidateOkB, Bool.and_eq_true] at h
  obtain ⟨⟨hpd, hsp⟩, hct⟩ := h
  have hsp' := autoTagE_ok_of _ (strFieldOk_getD fs "specialty" "General Medicine" hsp)
  have hct' := autoTagE_ok_of _ (strFieldOk_getD fs "case_type" "Clinical Case" hct)
  cases hpdl : lookupJ fs "patient_demographics" with
  | none =>
    simp only [validate_analysis, mkValidated, hpdl, Option.getD_none, hsp', hct', pdGetT]
  | some pdv =>
    rw [hpdl] at hpd
    cases pdv with
    | jobj pdf =>
      simp only [validate_analysis, mkValidated, hpdl, Option.getD_some, hsp', hct', pdGetT]
    | jnull => simp at hpd
    | jbool b => simp at hpd
    | jnum n => simp at hpd
    | jstr s => simp at hpd
    | jarr xs => simp at hpd

theorem validate_elim {a : JValue} {v : CaseAnalysisV}
    (h : validate_analysis a = .ok v) :
    ∃ fs, a = .jobj fs ∧ candidateOkB (.jobj fs) = true ∧ v = mkValidated fs := by
  cases a with
  | jobj fs =>
    refine ⟨fs, rfl, ?_⟩
    have main : ∀ pdf : List (String × JValue),
        ((lookupJ fs "patient_demographics").getD (.jobj []) = .jobj pdf) →
        strFieldOk fs "specialty" = true ∧ strFieldOk fs "case_type" = true ∧
          v = mkValidated fs := by
      intro pdf hpdf
      simp only [validate_analysis, hpdf] at h
      rcases hsp : autoTagE ((lookupJ fs "specialty").getD (.jstr "General Medicine"))
        with e | a1
      · rw [hsp] at h; simp at h
      rcases hct : autoTagE ((lookupJ fs "case_type").getD (.jstr "Clinical Case"))
        with e | a3
      · rw [hsp, hct] at h; simp at h
      rw [hsp, hct] at h
      obtain ⟨hspok, ha1⟩ := autoTagE_ok_elim _ _ hsp
      obtain ⟨hctok, ha3⟩ := autoTagE_ok_elim _ _ hct
      refine ⟨strFieldOk_of_getD fs "specialty" "General Medicine" hspok,
        strFieldOk_of_getD fs "case_type" "Clinical Case" hctok, ?_⟩
      have hv := (Except.ok.inj h).symm
      rw [hv, ha1, ha3]
      simp only [mkValidated, pdGetT, hpdf]
    cases hpdl : lookupJ fs "patient_demographics" with
    | none =>
      have hm := main [] (by rw [hpdl]; rfl)
      exact ⟨by simp [candidateOkB, hpdl, hm.1, hm.2.1], hm.2.2⟩
    | some pdv =>
      cases pdv with
      | jobj pdf =>
        have hm := main pdf (by rw [hpdl]; rfl)
        exact ⟨by simp [candidateOkB, hpdl, hm.1, hm.2.1], hm.2.2⟩
      | jnull =>
        simp only [validate_analysis, hpdl, Option.getD_some] at h
        exact Except.noConfusion h
      | jbool b =>
        simp only [validate_analysis, hpdl, Option.getD_some] at h
        exact Except.noConfusion h
      | jnum n =>
        simp only [validate_analysis, hpdl, Option.getD_some] at h
        exact Except.noConfusion h
      | jstr s =>
        simp only [validate_analysis, hpdl, Option.getD_some] at h
        exact Except.noConfusion h
      | jarr xs =>
        simp only [validate_analysis, hpdl, Option.getD_some] at h
        exact Except.noConfusion h
  | jnull => simp [validate_analysis] at h
  | jbool b => simp [validate_analysis] at h
  | jnum n => simp [validate_analysis] at h
  | jstr s => simp [validate_analysis] at h
  | jarr xs => simp [validate_analysis] at h

theorem mkValidated_tags (fs : List (String × JValue)) :
    (mkValidated fs).tags = pyDedup (modelTagsOf fs ++ autoTagsOf fs) := rfl

theorem mkValidated_specialty (fs : List (String × JValue)) :
    (mkValidated fs).specialty = specialtyOf fs := rfl

theorem mkValidated_case_type (fs : List (String × JValue)) :
    (mkValidated fs).case_type = case_typeOf fs := rfl

theorem mkValidated_complexity (fs : List (String × JValue)) :
    (mkValidated fs).complexity = complexityOf fs := rfl

theorem mkValidated_age_range (fs : List (String × JValue)) :
    (mkValidated fs).age_range =
      pdGetT ((lookupJ fs "patient_demographics").getD (.jobj []))
        "age_range" (.jstr "not specified") := rfl

theorem mkValidated_gender (fs : List (String × JValue)) :
    (mkValidated fs).gender =
      pdGetT ((lookupJ fs "patient_demographics").getD (.jobj []))
        "gender" (.jstr "not specified") := rfl

/-! ## Structure of the produced tag list -/

theorem cleanTags_mem_elim {l : List JValue} {t : String}
    (h : t ∈ cleanTags l) :
    ∃ s, t = cleanTag s ∧ (stripL s.data).isEmpty = false := by
  unfold cleanTags at h
  rw [List.mem_filterMap] at h
  obtain ⟨tv, _, htv⟩ := h
  cases tv with
  | jstr s =>
    have htv' : (if (stripL s.data).isEmpty then none else some (cleanTag s)) =
        some t := htv
    by_cases hs : (stripL s.data).isEmpty = true
    · rw [if_pos hs] at htv'
      exact Option.noConfusion htv'
    · rw [if_neg hs] at htv'
      exact ⟨s, (Option.some.inj htv').symm, by simpa using hs⟩
  | jnull => exact Option.noConfusion htv
  | jbool b => exact Option.noConfusion htv
  | jnum n => exact Option.noConfusion htv
  | jarr xs => exact Option.noConfusion htv
  | jobj g => exact Option.noConfusion htv

theorem cleanTags_mem_intro {l : List JValue} {s : String}
    (hs : JValue.jstr s ∈ l) (hns : (stripL s.data).isEmpty = false) :
    cleanTag s ∈ cleanTags l := by
  unfold cleanTags
  rw [List.mem_filterMap]
  refine ⟨.jstr s, hs, ?_⟩
  show (if (stripL s.data).isEmpty then none else some (cleanTag s)) =
    some (cleanTag s)
  rw [hns]
  rfl

theorem autoTagT_mem {v : JValue} {t : String} (h : t ∈ autoTagT v) :
    ∃ s, v = .jstr s ∧ t = hyphLower s := by
  cases v with
  | jstr s =>
    simp only [autoTagT] at h
    by_cases he : s.data.isEmpty = true
    · rw [if_pos he] at h
      exact absurd h (List.not_mem_nil t)
    · rw [if_neg he] at h
      exact ⟨s, rfl, by simpa using h⟩
  | jnull => exact absurd h (List.not_mem_nil t)
  | jbool b => exact absurd h (List.not_mem_nil t)
  | jnum n => exact absurd h (List.not_mem_nil t)
  | jarr xs => exact absurd h (List.not_mem_nil t)
  | jobj g => exact absurd h (List.not_mem_nil t)

theorem complexityTag_mem {v : JValue} {t : String}
    (h : t ∈ complexityTag v) : t = "complexity-" ++ pyStr v := by
  unfold complexityTag at h
  by_cases hv : pyTruthy v = true
  · rw [if_pos hv] at h
    simpa using h
  · rw [if_neg hv] at h
    exact absurd h (List.not_mem_nil t)

theorem modelTagsOf_mem {fs : List (String × JValue)} {t : String}
    (h : t ∈ modelTagsOf fs) :
    ∃ s, t = cleanTag s ∧ (stripL s.data).isEmpty = false := by
  simp only [modelTagsOf] at h
  by_cases he : (asList ((lookupJ fs "tags").getD (.jarr []))).isEmpty = true
  · rw [if_pos he] at h
    exact absurd h (List.not_mem_nil t)
  · rw [if_neg he] at h
    rw [mem_pyDedup] at h
    exact cleanTags_mem_elim h

theorem mkValidated_tags_mem {fs : List (String × JValue)} {t : String}
    (h : t ∈ (mkValidated fs).tags) :
    (∃ s, t = cleanTag s ∧ (stripL s.data).isEmpty = false) ∨
      t ∈ autoTagT (specialtyOf fs) ∨ t ∈ complexityTag (complexityOf fs) ∨
      t ∈ autoTagT (case_typeOf fs) := by
  rw [mkValidated_tags, mem_pyDedup, List.mem_append] at h
  rcases h with h | h
  · exact Or.inl (modelTagsOf_mem h)
  · unfold autoTagsOf at h
    rw [List.mem_append, List.mem_append] at h
    rcases h with (h | h) | h
    · exact Or.inr (Or.inl h)
    · exact Or.inr (Or.inr (Or.inl h))
    · exact Or.inr (Or.inr (Or.inr h))

/-! ## Lemmas about `update_case_fields` -/

theorem lookupJ_cons (a : String) (b : JValue) (xs : List (String × JValue))
    (k : String) :
    lookupJ ((a, b) :: xs) k = if a == k then some b else lookupJ xs k := by
  by_cases h : (a == k) = true
  · rw [if_pos h]
    simp [lookupJ, List.find?, h]
  · rw [if_neg h]
    have h' : (a == k) = false := by simpa using h
    simp [lookupJ, List.find?, h']

/-- A successful dict lookup splits the association list at the first
(and, for a dict, only) occurrence of the key. -/
theorem lookupJ_decomp {data : List (String × JValue)} {k : String}
    {v : JValue} (h : lookupJ data k = some v) :
    ∃ l₁ l₂, data = l₁ ++ (k, v) :: l₂ ∧ ∀ kv ∈ l₁, kv.1 ≠ k := by
  induction data with
  | nil => simp [lookupJ] at h
  | cons x xs ih =>
    obtain ⟨a, b⟩ := x
    rw [lookupJ_cons] at h
    by_cases hx : (a == k) = true
    · rw [if_pos hx] at h
      have ha : a = k := by simpa using hx
      have hb : b = v := Option.some.inj h
      subst ha; subst hb
      exact ⟨[], xs, rfl, by simp⟩
    · rw [if_neg hx] at h
      obtain ⟨l₁, l₂, rfl, h1⟩ := ih h
      refine ⟨(a, b) :: l₁, l₂, rfl, ?_⟩
      intro kv hkv
      rcases List.mem_cons.mp hkv with rfl | hkv'
      · exact ne_of_beq_false (by simpa using hx)
      · exact h1 kv hkv'

theorem coerceJsonField_fst (kv : String × JValue) :
    (coerceJsonField kv).1 = kv.1 := by
  unfold coerceJsonField
  split_ifs <;> rfl

theorem foldl_setAllowed_ne (g : StoredCase → JValue) (k : String)
    (hg2 : ∀ (c : StoredCase) (k' : String) (v : JValue), k' ≠ k →
      g (setAllowed c k' v) = g c) :
    ∀ (l : List (String × JValue)) (c : StoredCase),
      (∀ kv ∈ l, kv.1 ≠ k) →
      g (l.foldl (fun acc kv => setAllowed acc kv.1 kv.2) c) = g c := by
  intro l
  induction l with
  | nil => intro c _; rfl
  | cons x xs ih =>
    intro c hl
    rw [List.foldl_cons]
    rw [ih _ (fun kv hkv => hl kv (List.mem_cons_of_mem x hkv))]
    exact hg2 c x.1 x.2 (hl x (List.mem_cons_self x xs))

/-- The stored value of an allow-listed column after the `setattr` fold is
the value of the last request entry carrying its key. -/
theorem foldl_setAllowed_last (g : StoredCase → JValue) (k : String)
    (hg1 : ∀ (c : StoredCase) (v : JValue), g (setAllowed c k v) = v)
    (hg2 : ∀ (c : StoredCase) (k' : String) (v : JValue), k' ≠ k →
      g (setAllowed c k' v) = g c)
    (l₁ l₂ : List (String × JValue)) (w : JValue) (c : StoredCase)
    (h2 : ∀ kv ∈ l₂, kv.1 ≠ k) :
    g ((l₁ ++ (k, w) :: l₂).foldl
        (fun acc kv => setAllowed acc kv.1 kv.2) c) = w := by
  rw [List.foldl_append, List.foldl_cons]
  rw [foldl_setAllowed_ne g k hg2 l₂ _ h2]
  exact hg1 _ w

/-- Frame fact: a `setattr` for a different key leaves `key_findings`
untouched. -/
theorem setAllowed_ne_key_findings (c : StoredCase) (k' : String)
    (v : JValue) (hk : k' ≠ "key_findings") :
    (setAllowed c k' v).key_findings = c.key_findings := by
  simp only [setAllowed, apply_ite (fun st : StoredCase => st.key_findings)]
  simp [hk]

theorem setAllowed_ne_differential_diagnosis (c : StoredCase) (k' : String)
    (v : JValue) (hk : k' ≠ "differential_diagnosis") :
    (setAllowed c k' v).differential_diagnosis = c.differential_diagnosis := by
  simp only [setAllowed,
    apply_ite (fun st : StoredCase => st.differential_diagnosis)]
  simp [hk]

theorem setAllowed_ne_learning_points (c : StoredCase) (k' : String)
    (v : JValue) (hk : k' ≠ "learning_points") :
    (setAllowed c k' v).learning_points = c.learning_points := by
  simp only [setAllowed, apply_ite (fun st : StoredCase => st.learning_points)]
  simp [hk]

theorem setAllowed_ne_tags (c : StoredCase) (k' : String)
    (v : JValue) (hk : k' ≠ "tags") :
    (setAllowed c k' v).tags = c.tags := by
  simp only [setAllowed, apply_ite (fun st : StoredCase => st.tags)]
  simp [hk]

/-- Master lemma for the JSON-field coercion: for any request whose keys
are distinct (as a JSON object's are), supplying a non-list value for an
allow-listed JSON-typed column `k` makes the stored column empty. -/
theorem update_case_json_field (g : StoredCase → JValue) (k : String)
    (hg1 : ∀ (c : StoredCase) (v : JValue), g (setAllowed c k v) = v)
    (hg2 : ∀ (c : StoredCase) (k' : String) (v : JValue), k' ≠ k →
      g (setAllowed c k' v) = g c)
    (hkj : json_fields.contains k = true)
    (hkpd : (k == "patient_demographics") = false)
    (c : StoredCase) (data : List (String × JValue)) (v : JValue)
    (hnd : (data.map Prod.fst).Nodup)
    (hlk : lookupJ data k = some v) (hnl : isListB v = false) :
    g (update_case_fields c data) = .jarr [] := by
  obtain ⟨l₁, l₂, rfl, h1⟩ := lookupJ_decomp hlk
  have h2 : ∀ kv ∈ l₂, kv.1 ≠ k := by
    rw [List.map_append, List.map_cons] at hnd
    have hk2 : k ∉ l₂.map Prod.fst :=
      (List.nodup_cons.mp (List.Nodup.of_append_right hnd)).1
    intro kv hkv he
    exact hk2 (he ▸ List.mem_map_of_mem Prod.fst hkv)
  have h2' : ∀ kv ∈ (l₂.filter keepAfterPop).map coerceJsonField,
      kv.1 ≠ k := by
    intro kv hkv
    rw [List.mem_map] at hkv
    obtain ⟨kv₀, hkv₀, rfl⟩ := hkv
    rw [coerceJsonField_fst]
    exact h2 kv₀ (List.mem_of_mem_filter hkv₀)
  have hkeep : keepAfterPop (k, v) = true := by
    show (!(k == "patient_demographics")) = true
    rw [hkpd]
    rfl
  have hco : coerceJsonField (k, v) = (k, JValue.jarr []) := by
    unfold coerceJsonField
    rw [if_pos]
    show (json_fields.contains k && !isListB v) = true
    rw [hkj, hnl]
    rfl
  simp only [update_case_fields]
  rw [List.filter_append, List.filter_cons, if_pos hkeep,
    List.map_append, List.map_cons, hco]
  exact foldl_setAllowed_last g k hg1 hg2 _ _ _ _ h2'

/-! ## Claim theorems -/

/-- C2, counterexample:  For the transcription
`"45-year-old male, chest pain, hypertension"` analyzed while the model
call raises (model unavailable), the saved record's tags are exactly
`["unprocessed"]` and do **not** contain `"general-medicine"` — the
fallback analysis is returned as-is, without passing through
`_validate_analysis`, so the derived auto-tags the claim requires are
absent. -/
theorem analyze_transcription_fallback_tags_missing :
    ∃ r, analyze_transcription "45-year-old male, chest pain, hypertension"
        "manual_entry" .exn = .ok r ∧
      "general-medicine" ∉ r.tags := by
  refine ⟨_, rfl, ?_⟩
  decide

/-- C2, amended:  In the model-unavailable scenario the saved record
has specialty `"General Medicine"` and tag list exactly
`["unprocessed"]`: of the four tags the claim lists only `"unprocessed"`
is present (`"general-medicine"`, `"complexity-medium"`,
`"clinical-case"` are not). -/
theorem analyze_transcription_fallback_record :
    ∃ r, analyze_transcription "45-year-old male, chest pain, hypertension"
        "manual_entry" .exn = .ok r ∧
      r.specialty = .jstr "General Medicine" ∧ r.tags = ["unprocessed"] := by
  exact ⟨_, rfl, rfl, rfl⟩

/-- C5:  A whitespace-only transcription submitted to
`/api/analyze-transcription` is answered with status **500**, not 400:
the `HTTPException(400, "Transcription is required")` raised inside the
`try:` block is caught by the blanket `except Exception` and re-raised as
`HTTPException(500, str(e))`, for every model outcome. -/
theorem analyze_transcription_empty_gives_500 (o : ModelOutcome) :
    analyze_transcription "   " "manual_entry" o =
      .error (500, "400: Transcription is required") := rfl

/-- C6, counterexample:  For a 151-character transcription and a
failed model call, the fallback summary is *not* the first 150 characters
followed by the ellipsis marker: the code prepends `"Medical case: "`
(ollama_service.py line 169). -/
theorem fallback_summary_has_prefix :
    (create_fallback_analysis longTranscription).summary =
      .jstr ("Medical case: " ++ pySlice longTranscription 150 ++ "...") ∧
    "Medical case: " ++ pySlice longTranscription 150 ++ "..." ≠
      pySlice longTranscription 150 ++ "..." := by
  refine ⟨rfl, ?_⟩
  decide

/-- C6, amended:  The fallback summary equals
`"Medical case: "` followed by the first 150 characters and an ellipsis
marker when the transcription is longer than 150 characters, and equals
the transcription itself (no prefix, no ellipsis) when its length is at
most 150. -/
theorem fallback_summary_rule (t : String) :
    (150 < t.data.length →
      (create_fallback_analysis t).summary =
        .jstr ("Medical case: " ++ pySlice t 150 ++ "...")) ∧
    (t.data.length ≤ 150 →
      (create_fallback_analysis t).summary = .jstr t) := by
  constructor
  · intro h
    simp only [create_fallback_analysis]
    rw [if_pos h]
  · intro h
    simp only [create_fallback_analysis]
    rw [if_neg (by omega)]

theorem fallback_summary_rule_witness :
    (create_fallback_analysis longTranscription).summary =
      .jstr ("Medical case: " ++ pySlice longTranscription 150 ++ "...") ∧
    (create_fallback_analysis "chest pain").summary = .jstr "chest pain" :=
  ⟨(fallback_summary_rule longTranscription).1 (by decide),
   (fallback_summary_rule "chest pain").2 (by decide)⟩

/-- C7:  `analyze_case` never lets an exception escape: for every
transcription and every model-client outcome (call raises/times out,
non-200 status, unparseable payload, parseable payload — valid or not
for `_validate_analysis`) it returns a fully populated `CaseAnalysisV`. -/
theorem analyze_case_total (t : String) (o : ModelOutcome) :
    ∃ v, analyze_case t o = .ok v := by
  cases o with
  | exn => exact ⟨create_fallback_analysis t, rfl⟩
  | resp status body =>
    by_cases hs : status = 200
    · cases body with
      | notJson txt =>
        exact ⟨extract_fallback_analysis txt t, by simp [analyze_case, hs]⟩
      | parsed v =>
        cases hv : validate_analysis v with
        | ok va => exact ⟨va, by simp [analyze_case, hs, hv]⟩
        | error e =>
          exact ⟨create_fallback_analysis t, by simp [analyze_case, hs, hv]⟩
    · exact ⟨create_fallback_analysis t, by simp [analyze_case, hs]⟩

/-- C9:  Updating an existing case with
`{"unknown_field": "x", "notes": "y"}` sets `notes` to `"y"` and leaves
every other stored column unchanged; the unknown field is not stored
(the schema has no such column and the allow-list skips it) and no
failure is raised (the update is total). -/
theorem update_case_allowlist_frame (c : StoredCase) :
    update_case_fields c [("unknown_field", .jstr "x"), ("notes", .jstr "y")] =
      { c with notes := .jstr "y" } := rfl

/-- C10: for every update request against an existing case — arbitrary
request data with distinct keys, as a JSON object has — if the supplied
value for any of `key_findings`, `differential_diagnosis`,
`learning_points`, or `tags` is not a list, `update_case` silently
replaces that value with the empty list before applying the update, so
that stored field becomes empty (the request is not rejected and the old
value is not kept).  Each of the four fields is covered independently of
what else the request contains. -/
theorem update_case_nonlist_coercion (c : StoredCase)
    (data : List (String × JValue)) (hnd : (data.map Prod.fst).Nodup) :
    (∀ v, lookupJ data "key_findings" = some v → isListB v = false →
      (update_case_fields c data).key_findings = .jarr []) ∧
    (∀ v, lookupJ data "differential_diagnosis" = some v → isListB v = false →
      (update_case_fields c data).differential_diagnosis = .jarr []) ∧
    (∀ v, lookupJ data "learning_points" = some v → isListB v = false →
      (update_case_fields c data).learning_points = .jarr []) ∧
    (∀ v, lookupJ data "tags" = some v → isListB v = false →
      (update_case_fields c data).tags = .jarr []) := by
  refine ⟨fun v hlk hnl => ?_, fun v hlk hnl => ?_, fun v hlk hnl => ?_,
    fun v hlk hnl => ?_⟩
  · exact update_case_json_field (fun st => st.key_findings) "key_findings"
      (fun c v => rfl) setAllowed_ne_key_findings
      rfl rfl c data v hnd hlk hnl
  · exact update_case_json_field (fun st => st.differential_diagnosis)
      "differential_diagnosis"
      (fun c v => rfl) setAllowed_ne_differential_diagnosis
      rfl rfl c data v hnd hlk hnl
  · exact update_case_json_field (fun st => st.learning_points)
      "learning_points"
      (fun c v => rfl) setAllowed_ne_learning_points
      rfl rfl c data v hnd hlk hnl
  · exact update_case_json_field (fun st => st.tags) "tags"
      (fun c v => rfl) setAllowed_ne_tags
      rfl rfl c data v hnd hlk hnl

/-- C3, counterexample: the complexity auto-tag is built by the f-string
`f"complexity-{validated['complexity']}"` without any cleaning
(ollama_service.py line 122): for the candidate
`{"complexity": "Medium"}` the produced tags contain
`"complexity-Medium"`, which is not in cleaned (lowercase) form. -/
theorem complexity_auto_tag_not_cleaned :
    ∃ v, validate_analysis (.jobj [("complexity", .jstr "Medium")]) = .ok v ∧
      "complexity-Medium" ∈ v.tags ∧
      cleanTag "complexity-Medium" ≠ "complexity-Medium" := by
  refine ⟨_, rfl, ?_, ?_⟩ <;> decide

/-- C3, amended: the produced tag list has no duplicates, and every
element is either a fully cleaned non-empty model-suggested tag (a fixed
point of the cleaning rule) or one of the up-to-three auto-tags, which
are only partially cleaned: the specialty and case_type auto-tags are
lowercased with spaces hyphenated (but not trimmed), and the complexity
auto-tag is the string `"complexity-"` followed by the complexity value
verbatim. -/
theorem validate_tags_shape (a : JValue) {v : CaseAnalysisV}
    (h : validate_analysis a = .ok v) :
    v.tags.Nodup ∧
    ∀ t ∈ v.tags,
      (cleanTag t = t ∧ t ≠ "") ∨
      (∃ s, v.specialty = .jstr s ∧ t = hyphLower s) ∨
      t = "complexity-" ++ pyStr v.complexity ∨
      (∃ s, v.case_type = .jstr s ∧ t = hyphLower s) := by
  obtain ⟨fs, rfl, hok, rfl⟩ := validate_elim h
  constructor
  · rw [mkValidated_tags]
    exact nodup_pyDedup _
  · intro t ht
    rcases mkValidated_tags_mem ht with ⟨s, rfl, hns⟩ | h1 | h1 | h1
    · left
      refine ⟨cleanTag_idem s, ?_⟩
      intro he
      have hd : cleanL s.data = [] := congrArg String.data he
      have hne : stripL s.data ≠ [] := by
        simpa [List.isEmpty_iff] using hns
      exact cleanL_ne_nil hne hd
    · obtain ⟨s, hs, rfl⟩ := autoTagT_mem h1
      exact Or.inr (Or.inl ⟨s, by rw [mkValidated_specialty]; exact hs, rfl⟩)
    · refine Or.inr (Or.inr (Or.inl ?_))
      rw [mkValidated_complexity]
      exact complexityTag_mem h1
    · obtain ⟨s, hs, rfl⟩ := autoTagT_mem h1
      exact Or.inr (Or.inr (Or.inr
        ⟨s, by rw [mkValidated_case_type]; exact hs, rfl⟩))

theorem validate_tags_shape_witness :
    defaultValidated.tags.Nodup ∧
    ∀ t ∈ defaultValidated.tags,
      (cleanTag t = t ∧ t ≠ "") ∨
      (∃ s, defaultValidated.specialty = .jstr s ∧ t = hyphLower s) ∨
      t = "complexity-" ++ pyStr defaultValidated.complexity ∨
      (∃ s, defaultValidated.case_type = .jstr s ∧ t = hyphLower s) :=
  validate_tags_shape (.jobj []) rfl

/-- C4, counterexample: normalization is not idempotent.  For the
candidate `{"complexity": "Medium"}` the first pass produces the
uncleaned auto-tag `"complexity-Medium"`; feeding the result back adds
its cleaned form `"complexity-medium"`, so the tag set grows — the two
results are not equal even as tag sets. -/
theorem normalize_not_idempotent :
    ∃ v v', validate_analysis (.jobj [("complexity", .jstr "Medium")]) = .ok v ∧
      validate_analysis (toCandidate v) = .ok v' ∧
      "complexity-medium" ∈ v'.tags ∧ "complexity-medium" ∉ v.tags := by
  refine ⟨_, _, rfl, rfl, ?_, ?_⟩ <;> decide

/-- C4, amended: re-normalizing the output of `_validate_analysis`
succeeds and preserves every field except possibly `tags`; the tag set
never loses an element (it can gain the cleaned forms of dirty
auto-tags, as the counterexample shows). -/
theorem normalize_idempotent_up_to_tags (a : JValue) {v : CaseAnalysisV}
    (h : validate_analysis a = .ok v) :
    ∃ v', validate_analysis (toCandidate v) = .ok v' ∧
      v'.specialty = v.specialty ∧ v'.case_type = v.case_type ∧
      v'.complexity = v.complexity ∧ v'.age_range = v.age_range ∧
      v'.gender = v.gender ∧ v'.summary = v.summary ∧
      v'.key_findings = v.key_findings ∧
      v'.differential_diagnosis = v.differential_diagnosis ∧
      v'.learning_points = v.learning_points ∧
      ∀ t ∈ v.tags, t ∈ v'.tags := by
  obtain ⟨fs, rfl, hok, rfl⟩ := validate_elim h
  have hok' : candidateOkB (.jobj (toCandidateFields (mkValidated fs))) = true := by
    simp only [candidateOkB, Bool.and_eq_true] at hok
    obtain ⟨⟨_, hsp⟩, hct⟩ := hok
    have hsp' := strFieldOk_getD fs "specialty" "General Medicine" hsp
    have hct' := strFieldOk_getD fs "case_type" "Clinical Case" hct
    simp only [candidateOkB, toCandidateFields, Bool.and_eq_true]
    exact ⟨⟨rfl, hsp'⟩, hct'⟩
  refine ⟨mkValidated (toCandidateFields (mkValidated fs)),
    validate_eval _ hok', rfl, rfl, rfl, rfl, rfl, rfl, rfl, rfl, rfl, ?_⟩
  intro t ht
  have hmem := ht
  rw [mkValidated_tags, mem_pyDedup, List.mem_append] at ht
  rw [mkValidated_tags, mem_pyDedup, List.mem_append]
  rcases ht with ht | ht
  · left
    obtain ⟨s, rfl, hns⟩ := modelTagsOf_mem ht
    show cleanTag s ∈ modelTagsOf (toCandidateFields (mkValidated fs))
    have htagsne : (mkValidated fs).tags ≠ [] := List.ne_nil_of_mem hmem
    have hlistne :
        (asList ((lookupJ (toCandidateFields (mkValidated fs)) "tags").getD
          (.jarr []))).isEmpty = false := by
      show ((mkValidated fs).tags.map JValue.jstr).isEmpty = false
      simp [htagsne]
    simp only [modelTagsOf, hlistne, Bool.false_eq_true, if_false]
    rw [mem_pyDedup]
    have hcc : cleanTag (cleanTag s) ∈
        cleanTags ((mkValidated fs).tags.map JValue.jstr) := by
      apply cleanTags_mem_intro
      · exact List.mem_map_of_mem JValue.jstr hmem
      · have := cleanTag_strip_ne (s := s) (by simp [hns])
        simpa using this
    rwa [cleanTag_idem] at hcc
  · right
    show t ∈ autoTagsOf (toCandidateFields (mkValidated fs))
    exact ht

theorem normalize_idempotent_up_to_tags_witness :
    ∃ v', validate_analysis (toCandidate defaultValidated) = .ok v' ∧
      v'.specialty = defaultValidated.specialty ∧
      v'.case_type = defaultValidated.case_type ∧
      v'.complexity = defaultValidated.complexity ∧
      v'.age_range = defaultValidated.age_range ∧
      v'.gender = defaultValidated.gender ∧
      v'.summary = defaultValidated.summary ∧
      v'.key_findings = defaultValidated.key_findings ∧
      v'.differential_diagnosis = defaultValidated.differential_diagnosis ∧
      v'.learning_points = defaultValidated.learning_points ∧
      ∀ t ∈ defaultValidated.tags, t ∈ v'.tags :=
  normalize_idempotent_up_to_tags (.jobj []) rfl

/-- C8: when the model responds but its payload is unparseable, the
extraction fallback scans the fixed vocabulary in order: any
transcription containing `"cardiology"` (case-insensitively) yields
specialty `"Cardiology"` — the vocabulary is scanned in order and
`"cardiology"` is its first entry — and a transcription matching no
vocabulary entry yields `"General Medicine"`. -/
theorem extract_fallback_specialty (a t : String) :
    (pySubstr "cardiology".data (lowerL t.data) = true →
      (extract_fallback_analysis a t).specialty = .jstr "Cardiology") ∧
    ((∀ s ∈ specialtiesVocab, pySubstr s.data (lowerL t.data) = false) →
      (extract_fallback_analysis a t).specialty = .jstr "General Medicine") := by
  constructor
  · intro h
    simp only [extract_fallback_analysis, specialtiesVocab, List.find?, h]
    rfl
  · intro h
    have h1 := h "cardiology" (by simp [specialtiesVocab])
    have h2 := h "neurology" (by simp [specialtiesVocab])
    have h3 := h "surgery" (by simp [specialtiesVocab])
    have h4 := h "pediatrics" (by simp [specialtiesVocab])
    have h5 := h "internal medicine" (by simp [specialtiesVocab])
    have h6 := h "emergency" (by simp [specialtiesVocab])
    simp only [extract_fallback_analysis, specialtiesVocab, List.find?,
      h1, h2, h3, h4, h5, h6]
    rfl

theorem extract_fallback_specialty_witness :
    (extract_fallback_analysis "not json" "Emergency CARDIOLOGY consult").specialty =
      .jstr "Cardiology" ∧
    (extract_fallback_analysis "not json" "knee pain").specialty =
      .jstr "General Medicine" :=
  ⟨(extract_fallback_specialty "not json" "Emergency CARDIOLOGY consult").1 (by decide),
   (extract_fallback_specialty "not json" "knee pain").2 (by decide)⟩

/-- C1, counterexample: `_validate_analysis` is not total — on the
candidate object whose `patient_demographics` field is null, the nested
`.get` (source line 92) raises `AttributeError` instead of defaulting,
so normalize does not return for this input. -/
theorem validate_analysis_raises_on_null_demographics :
    validate_analysis (.jobj [("patient_demographics", .jnull)]) =
      .error "AttributeError" := rfl

/-- C1, amended: `_validate_analysis` returns without raising exactly on
candidates whose `patient_demographics`, if present, is an object and
whose `specialty` / `case_type`, if present and truthy, are strings.  On
those candidates every output field is present; `specialty`,
`case_type`, `complexity` and `summary` get their §3 defaults when the
key is absent (a present key passes through verbatim, even when null or
empty, so the non-empty-string invariant holds only for absent or
well-formed supplied values); demographics are defaulted field by field;
and a non-list sequence field is coerced to the empty list. -/
theorem validate_analysis_defaults (fs : List (String × JValue))
    (h : candidateOkB (.jobj fs) = true) :
    ∃ v, validate_analysis (.jobj fs) = .ok v ∧
      (lookupJ fs "specialty" = none → v.specialty = .jstr "General Medicine") ∧
      (∀ x, lookupJ fs "specialty" = some x → v.specialty = x) ∧
      (lookupJ fs "case_type" = none → v.case_type = .jstr "Clinical Case") ∧
      (lookupJ fs "complexity" = none → v.complexity = .jstr "medium") ∧
      (lookupJ fs "summary" = none →
        v.summary = .jstr "Medical case requiring analysis") ∧
      (lookupJ fs "patient_demographics" = none →
        v.age_range = .jstr "not specified" ∧ v.gender = .jstr "not specified") ∧
      (∀ pdf, lookupJ fs "patient_demographics" = some (.jobj pdf) →
        (lookupJ pdf "age_range" = none → v.age_range = .jstr "not specified") ∧
        (lookupJ pdf "gender" = none → v.gender = .jstr "not specified")) ∧
      (∀ x, lookupJ fs "key_findings" = some x → isListB x = false →
        v.key_findings = []) ∧
      (∀ x, lookupJ fs "differential_diagnosis" = some x → isListB x = false →
        v.differential_diagnosis = []) ∧
      (∀ x, lookupJ fs "learning_points" = some x → isListB x = false →
        v.learning_points = []) := by
  refine ⟨mkValidated fs, validate_eval fs h, ?_, ?_, ?_, ?_, ?_, ?_, ?_, ?_, ?_, ?_⟩
  · intro hx; simp [mkValidated, hx]
  · intro x hx; simp [mkValidated, hx]
  · intro hx; simp [mkValidated, hx]
  · intro hx; simp [mkValidated, hx]
  · intro hx; simp [mkValidated, hx]
  · intro hx
    constructor
    · rw [mkValidated_age_range, hx]; rfl
    · rw [mkValidated_gender, hx]; rfl
  · intro pdf hx
    constructor
    · intro hy
      rw [mkValidated_age_range, hx]
      show (lookupJ pdf "age_range").getD (.jstr "not specified") =
        .jstr "not specified"
      rw [hy]; rfl
    · intro hy
      rw [mkValidated_gender, hx]
      show (lookupJ pdf "gender").getD (.jstr "not specified") =
        .jstr "not specified"
      rw [hy]; rfl
  · intro x hx hnl
    simp only [mkValidated, hx, Option.getD_some]
    cases x <;> simp [isListB] at hnl ⊢ <;> rfl
  · intro x hx hnl
    simp only [mkValidated, hx, Option.getD_some]
    cases x <;> simp [isListB] at hnl ⊢ <;> rfl
  · intro x hx hnl
    simp only [mkValidated, hx, Option.getD_some]
    cases x <;> simp [isListB] at hnl ⊢ <;> rfl

theorem validate_analysis_defaults_witness :
    ∃ v, validate_analysis
        (.jobj [("summary", .jnull), ("key_findings", .jstr "oops"),
                ("patient_demographics",
                 .jobj [("age_range", .jstr "20-30")])]) = .ok v ∧
      v.specialty = .jstr "General Medicine" ∧
      v.case_type = .jstr "Clinical Case" ∧
      v.complexity = .jstr "medium" ∧
      v.summary = .jnull ∧
      v.age_range = .jstr "20-30" ∧ v.gender = .jstr "not specified" ∧
      v.key_findings = [] := by
  obtain ⟨v, hv, hsp, _, hct, hcx, _, _, hpd, hkf, _, _⟩ :=
    validate_analysis_defaults
      [("summary", .jnull), ("key_findings", .jstr "oops"),
       ("patient_demographics", .jobj [("age_range", .jstr "20-30")])]
      (by decide)
  refine ⟨v, hv, hsp rfl, hct rfl, hcx rfl, ?_,
    ?_, (hpd _ rfl).2 rfl, hkf (.jstr "oops") rfl rfl⟩
  · have := (Except.ok.inj hv).symm
    rw [this]; rfl
  · have := (Except.ok.inj hv).symm
    rw [this]; rfl

theorem update_case_nonlist_coercion_witness :
    (update_case_fields sampleCase
        [("key_findings", .jstr "a"), ("tags", .jnum 3),
         ("notes", .jstr "n")]).key_findings = .jarr [] ∧
    (update_case_fields sampleCase
        [("key_findings", .jstr "a"), ("tags", .jnum 3),
         ("notes", .jstr "n")]).tags = .jarr [] :=
  ⟨(update_case_nonlist_coercion sampleCase
      [("key_findings", .jstr "a"), ("tags", .jnum 3), ("notes", .jstr "n")]
      (by decide)).1 (.jstr "a") rfl rfl,
   (update_case_nonlist_coercion sampleCase
      [("key_findings", .jstr "a"), ("tags", .jnum 3), ("notes", .jstr "n")]
      (by decide)).2.2.2 (.jnum 3) rfl rfl⟩

end CaseTracker
